import Mathlib

/-!
Shallow embedding of the asana-go transport layer (client request building,
option merging, response envelope decoding, pagination) together with proofs
of the specification claims about it.

The embedding follows the Go source:
* `getURL`, `mergeQuery`, `Client.get`, `Client.post`/`put`/`do`,
  `Client.postMultipart`, `Client.parseResponse`, `Client.parseResponseData`
  from the client file;
* `Workspace.AllProjects` from the projects file.

External library behaviour used by that code (encoding/json including the
`json.RawMessage` handling of `null`, mime/multipart part writing,
`mergo.Merge`, `go-querystring`) is embedded with its documented semantics.
-/

namespace Asana

/-! ## JSON values

A JSON document, used both for request bodies and response bodies.  Numbers
are modelled as integers: no claim involves fractional numeric data. -/

inductive Json where
  | null
  | bool (b : Bool)
  | num (n : Int)
  | str (s : String)
  | arr (elems : List Json)
  | obj (fields : List (String × Json))
deriving Inhabited

/-- First value bound to a key in a JSON object's field list (objects are
assumed to bind each key once, as the API's envelopes do). -/
def jsonLookup (fields : List (String × Json)) (k : String) : Option Json :=
  match fields with
  | [] => none
  | (k', v) :: rest => if k' = k then some v else jsonLookup rest k

/-! ## The response envelope

Go type:
```
type Response struct {
    Data     json.RawMessage `json:"data"`
    NextPage *NextPage       `json:"next_page"`
    Errors   []*Error        `json:"errors"`
}
```
-/

structure NextPage where
  offset : String := ""
  path : String := ""
  uri : String := ""
deriving DecidableEq, Inhabited

/-- Modelled from the spec: the structured API error element carried in the
envelope's `errors` list (the `Error` type lives in a repository file that is
not part of the provided source; §7 of the spec describes it as the
service-reported error record, of which the `message` text is the part the
spec's examples observe). -/
structure ApiErrorPart where
  message : String := ""
deriving DecidableEq, Inhabited

structure Response where
  data : Option Json
  nextPage : Option NextPage
  errors : List ApiErrorPart

/-- Decoding of one element of the envelope's `errors` array
(`*Error` in Go): an object contributes its `"message"` string field,
a missing or non-string message leaves the zero value.  A JSON `null`
element would give a nil pointer in Go; it is modelled as the zero record. -/
def decodeErrorPart (j : Json) : Except String ApiErrorPart :=
  match j with
  | .null => .ok {}
  | .obj fields =>
    match jsonLookup fields "message" with
    | some (.str s) => .ok { message := s }
    | some .null => .ok {}
    | none => .ok {}
    | some _ => .error "json: cannot unmarshal value into Go string field Error.message"
  | _ => .error "json: cannot unmarshal value into Go value of type asana.Error"

def decodeErrorParts (js : List Json) : Except String (List ApiErrorPart) :=
  match js with
  | [] => .ok []
  | j :: rest =>
    match decodeErrorPart j, decodeErrorParts rest with
    | .ok e, .ok es => .ok (e :: es)
    | .error m, _ => .error m
    | _, .error m => .error m

/-- Decoding of the `next_page` field (`*NextPage`): JSON `null` sets the
pointer to nil; an object fills the string fields (absent fields keep the
zero value `""`). -/
def decodeNextPage (j : Json) : Except String (Option NextPage) :=
  match j with
  | .null => .ok none
  | .obj fields =>
    let getStr (k : String) : Except String String :=
      match jsonLookup fields k with
      | some (.str s) => .ok s
      | some .null => .ok ""
      | none => .ok ""
      | some _ => .error "json: cannot unmarshal value into Go string field NextPage"
    match getStr "offset", getStr "path", getStr "uri" with
    | .ok o, .ok p, .ok u => .ok (some { offset := o, path := p, uri := u })
    | .error m, _, _ => .error m
    | _, .error m, _ => .error m
    | _, _, .error m => .error m
  | _ => .error "json: cannot unmarshal value into Go value of type asana.NextPage"

/-- Semantics of `json.Unmarshal(body, &Response{})`.

The crucial `encoding/json` behaviour for the `Data json.RawMessage` field:
`RawMessage.UnmarshalJSON` is invoked even when the field's value is the JSON
literal `null`, so a *present* `"data": null` stores the bytes `null`
(non-nil), while an *absent* `data` key leaves the field nil.  Hence
`data = some Json.null` versus `data = none` below.  A top-level JSON `null`
body leaves the zero-valued struct; a non-object, non-null body is an
unmarshal error. -/
def decodeEnvelope (body : Json) : Except String Response :=
  match body with
  | .null => .ok { data := none, nextPage := none, errors := [] }
  | .obj fields =>
    let data := jsonLookup fields "data"
    let nextPageResult :=
      match jsonLookup fields "next_page" with
      | none => Except.ok (none : Option NextPage)
      | some j => decodeNextPage j
    let errorsResult :=
      match jsonLookup fields "errors" with
      | none => Except.ok ([] : List ApiErrorPart)
      | some .null => Except.ok []
      | some (.arr js) => decodeErrorParts js
      | some _ => Except.error "json: cannot unmarshal value into Go value of type []*asana.Error"
    match nextPageResult, errorsResult with
    | .ok np, .ok es => .ok { data := data, nextPage := np, errors := es }
    | .error m, _ => .error m
    | _, .error m => .error m
  | _ => .error "json: cannot unmarshal value into Go value of type asana.Response"

/-! ## Errors returned by the client -/

inductive ClientErr where
  /-- A transport / body-read failure, possibly wrapped with context. -/
  | ioError (msg : String)
  /-- A `json.Unmarshal` failure on the response body or the `data` field. -/
  | decodeError (msg : String)
  /-- Modelled from the spec: `Response.Error(resp)` (defined in a repository
  file not part of the provided source) builds the structured API error from
  the envelope's `errors` list and the response's status code (§7). -/
  | apiError (errors : List ApiErrorPart) (statusCode : Nat)
  /-- The `errors.New("Missing data from response")` error. -/
  | missingData
  /-- An error returned by a payload's `Validate()` method. -/
  | validationError (msg : String)
  /-- An `errors.Wrap(err, ctx)` wrapper. -/
  | wrapped (ctx : String) (e : ClientErr)

/-- Embedding of `Client.parseResponseData`: `json.Unmarshal(data, result)`.  Unmarshalling
the JSON literal `null` succeeds but leaves the destination untouched; any
other value is written into the destination (decoding into the caller's
concrete type is abstracted: the value delivered to the destination is
returned).  The returned option records what was written. -/
def parseResponseData (data : Json) : Option Json :=
  match data with
  | .null => none
  | j => some j

/-- Embedding of `Client.parseResponse`: read and decode the envelope, classify the HTTP
status (200/201 success, everything else an API error), reject a nil `data`
field, then decode `data` into the caller's destination.

Returns the envelope together with what was written to the destination. -/
def parseResponse (status : Nat) (body : Json) : Except ClientErr (Response × Option Json) :=
  match decodeEnvelope body with
  | .error m => .error (.decodeError m)
  | .ok value =>
    if status = 200 ∨ status = 201 then
      match value.data with
      | none => .error .missingData
      | some d => .ok (value, parseResponseData d)
    else
      .error (.apiError value.errors status)

/-! ## Query parameter maps

`url.Values` is `map[string][]string`; it is modelled as an association list
with at most one entry per key (the operations below preserve that). -/

abbrev Values := List (String × List String)

/-- Lookup `q[k]` — the values bound to a key; `[]` when the key is absent. -/
def vlookup (q : Values) (k : String) : List String :=
  match q with
  | [] => []
  | (k', vs) :: rest => if k' = k then vs else vlookup rest k

/-- Go's `q.Del(k)`. -/
def vdel (q : Values) (k : String) : Values :=
  match q with
  | [] => []
  | (k', vs) :: rest => if k' = k then vdel rest k else (k', vs) :: vdel rest k

/-- Go's `q.Add(k, v)`: append `v` to the values of `k`, creating the key if
absent. -/
def vadd (q : Values) (k : String) (v : String) : Values :=
  match q with
  | [] => [(k, [v])]
  | (k', vs) :: rest => if k' = k then (k', vs ++ [v]) :: rest else (k', vs) :: vadd rest k v

/-- Embedding of `mergeQuery(q, request)`: for every key of the encoded source, delete the
key from `q` and re-add the source's values; keys the source does not produce
are untouched.  The source is given already encoded to `url.Values`
(`query.Values(request)` — the go-querystring encoding of an arbitrary domain
struct is external; its output is a key/values map). -/
def mergeQuery (q : Values) (src : Values) : Values :=
  src.foldl (fun acc kv => (kv.2).foldl (fun a v => vadd a kv.1 v) (vdel acc kv.1)) q

/-! ## Options

Go struct (repository file not part of the provided source). -/

/-- Modelled from the spec: the `Options` value type (§3) — a pagination page
size (`limit`), a raw opaque pagination offset token (`offset`), and a
field-expansion selector list (`fields`, encoded as `opt_fields`).  Each
field's zero value (`0` / `""` / `[]`) means "unset". -/
structure Options where
  limit : Nat := 0
  offset : String := ""
  fields : List String := []
deriving DecidableEq, Inhabited

/-- Encoding `query.Values` applied to an `Options` value: each set (non-zero) field
produces its query key, unset fields are omitted (`omitempty`); the selector
list is encoded comma-separated under `opt_fields`. -/
def optionsValues (o : Options) : Values :=
  (if o.limit = 0 then [] else [("limit", [toString o.limit])]) ++
  (if o.offset = "" then [] else [("offset", [o.offset])]) ++
  (if o.fields = [] then [] else [("opt_fields", [String.intercalate "," o.fields])])

/-- Semantics of `mergo.Merge(dst, src)`: fill every zero-valued field of `dst` with the
corresponding field of `src`; non-zero fields of `dst` are kept.  The Go call
mutates `dst` in place; the returned value is the post-call state of `dst`. -/
def mergoMerge (dst src : Options) : Options :=
  { limit := if dst.limit = 0 then src.limit else dst.limit
    offset := if dst.offset = "" then src.offset else dst.offset
    fields := if dst.fields = [] then src.fields else dst.fields }

/-- The option-preparation prefix of `Client.do` (write calls): take the first
variadic `*Options` if one was supplied (nil pointer or no argument give a
fresh zero value), then `mergo.Merge` the client defaults into it — in place,
so when the caller supplied a non-nil first Options, the caller's value now
holds the merge result.

Returns `(options used for the request, caller's variadic slice after the
call)`; a list element `none` is a nil `*Options`. -/
def doPrepareOptions (defaults : Options) (opts : List (Option Options)) :
    Options × List (Option Options) :=
  match opts with
  | [] => (mergoMerge {} defaults, [])
  | none :: rest => (mergoMerge {} defaults, none :: rest)
  | some o :: rest => (mergoMerge o defaults, some (mergoMerge o defaults) :: rest)

/-! ## Payloads and call pipelines -/

/-- JSON serialization of an `Options` value (`json:"...,omitempty"` tags:
unset fields are omitted). -/
def optionsJson (o : Options) : Json :=
  Json.obj ((if o.limit = 0 then [] else [("limit", Json.num o.limit)]) ++
    (if o.offset = "" then [] else [("offset", Json.str o.offset)]) ++
    (if o.fields = [] then [] else [("fields", Json.arr (o.fields.map Json.str))]))

/-- A request payload (`data interface{}`), as far as the transport observes
it: its optional `Validator` capability (`none`: the type does not implement
`Validator`; `some none`: `Validate()` returns nil; `some (some msg)`:
`Validate()` fails), its go-querystring encoding (used by `get`), and its
JSON serialization (used by `do`). -/
structure DataPayload where
  validate : Option (Option String) := none
  query : Values := []
  json : Json := .null

/-- The network, abstracted: either a transport failure or a response
`(status code, decoded body)`. -/
abbrev Net := Except String (Nat × Json)

/-- The query built by `Client.get`: encode the client defaults, then merge
each further source over the result (the domain value's parameters first,
then each supplied Options in order). -/
def getQuerySources (defaults : Values) (sources : List Values) : Values :=
  sources.foldl mergeQuery defaults

/-- Outcome of a `get` call: how many HTTP requests were issued, what was
written to the caller's destination, and the returned value. -/
structure GetOutcome where
  requests : Nat
  written : Option Json
  result : Except ClientErr (Option NextPage)

/-- The request/response tail of `Client.get`, after query building. -/
def getFinish (net : Net) : GetOutcome :=
  match net with
  | .error msg => { requests := 1, written := none, result := .error (.wrapped "GET error" (.ioError msg)) }
  | .ok (status, body) =>
    match parseResponse status body with
    | .error e => { requests := 1, written := none, result := .error e }
    | .ok (value, written) => { requests := 1, written := written, result := .ok value.nextPage }

/-- Embedding of `Client.get`: encode the default options; if a domain value is supplied,
validate it when it exposes the capability (aborting on failure with no
request made) and merge its parameters into the query; merge each supplied
Options over the query in order; then issue the request and parse the
response. -/
def getRun (defaults : Options) (data : Option DataPayload) (opts : List (Option Options))
    (net : Net) : GetOutcome :=
  match data with
  | some d =>
    match d.validate with
    | some (some msg) => { requests := 0, written := none, result := .error (.validationError msg) }
    | _ =>
      let _q := getQuerySources (optionsValues defaults)
        (d.query :: opts.map (fun o => match o with | some o => optionsValues o | none => []))
      getFinish net
  | none =>
    let _q := getQuerySources (optionsValues defaults)
      (opts.map (fun o => match o with | some o => optionsValues o | none => []))
    getFinish net

/-- Outcome of a `do` (post/put) call. -/
structure DoOutcome where
  requests : Nat
  written : Option Json
  result : Except ClientErr Unit
  /-- The caller's variadic Options slice after the call (`mergo.Merge`
  mutates the first element in place when it is non-nil). -/
  optsAfter : List (Option Options)

/-- The validation / request / response tail of `Client.do`, which depends on
the Options only through the single merged value. -/
def doCore (method : String) (options : Options) (data : Option DataPayload)
    (net : Net) : Nat × Option Json × Except ClientErr Unit :=
  match (match data with | some d => d.validate | none => none) with
  | some (some msg) => (0, none, .error (.validationError msg))
  | _ =>
    let _body := Json.obj [("data", (match data with | some d => d.json | none => .null)),
      ("options", optionsJson options)]
    match net with
    | .error msg => (1, none, .error (.wrapped (method ++ " error") (.ioError msg)))
    | .ok (status, body) =>
      match parseResponse status body with
      | .error e => (1, none, .error e)
      | .ok (_, written) => (1, written, .ok ())

/-- Embedding of `Client.do` (the body of `post` and `put`): prepare the merged Options
(mutating the caller's first Options in place when non-nil), validate the
payload when it exposes the capability, serialize `{data, options}`, issue
the request and parse the response. -/
def doRun (method : String) (defaults : Options) (data : Option DataPayload)
    (opts : List (Option Options)) (net : Net) : DoOutcome :=
  let p := doPrepareOptions defaults opts
  let c := doCore method p.1 data net
  { requests := c.1, written := c.2.1, result := c.2.2, optsAfter := p.2 }

/-- Embedding of `Client.post`. -/
def postRun (defaults : Options) (data : Option DataPayload)
    (opts : List (Option Options)) (net : Net) : DoOutcome :=
  doRun "POST" defaults data opts net

/-- Embedding of `Client.put`. -/
def putRun (defaults : Options) (data : Option DataPayload)
    (opts : List (Option Options)) (net : Net) : DoOutcome :=
  doRun "PUT" defaults data opts net

/-! ## URL construction -/

/-- Embedding of `Client.getURL`: a path not beginning with `/` panics (`none`; for the
empty string the index expression `path[0]` itself panics); otherwise the
base URL with the path appended. -/
def getURL (base : String) (path : String) : Option String :=
  match path.data with
  | [] => none
  | c :: _ => if c = '/' then some (base ++ path) else none

/-! ## Pagination: `Workspace.AllProjects` -/

/-- The loop body of `AllProjects`: while the cursor is present, build the
page Options `{Limit: 100, Offset: cursor.offset}`, fetch the page
(`Workspace.Projects` → `client.get`, abstracted as `fetch`), abort with the
error on failure, otherwise append the page's items and continue with the
returned cursor.  `fuel` bounds the number of iterations the model unfolds
(the Go loop has no such bound; every theorem below holds for all
sufficiently large fuel). -/
def allProjectsGo {α : Type} (fetch : Options → Except ClientErr (List α × Option NextPage)) :
    Nat → Option NextPage → List α → Except ClientErr (List α)
  | 0, cursor, acc =>
    (match cursor with
     | none => .ok acc
     | some _ => .error (.ioError "model: out of fuel"))
  | fuel + 1, cursor, acc =>
    (match cursor with
     | none => .ok acc
     | some cur =>
       match fetch { limit := 100, offset := cur.offset } with
       | .error e => .error e
       | .ok (projects, nextPage) => allProjectsGo fetch fuel nextPage (acc ++ projects))

/-- Embedding of `Workspace.AllProjects`: start from the fresh zero cursor
(`nextPage := &NextPage{}`, offset `""`) with an empty accumulator. -/
def allProjects {α : Type} (fetch : Options → Except ClientErr (List α × Option NextPage))
    (fuel : Nat) : Except ClientErr (List α) :=
  allProjectsGo fetch fuel (some {}) []

/-! ## Multipart upload: `Client.postMultipart` -/

/-- Embedding of `escapeQuotes` (copied in the source from mime/multipart): escape `\`
and `"` with a backslash. -/
def escapeQuotes (s : String) : String :=
  String.join (s.data.map fun c =>
    if c = '\\' then "\\\\" else if c = '"' then "\\\"" else String.singleton c)

/-- The bytes `multipart.Writer.CreatePart` appends to the buffer for the
single part: dash-boundary line, then the MIME headers (written in sorted
key order: Content-Disposition before Content-Type), then the blank line. -/
def mimePartHeader (boundary field filename contentType : String) : String :=
  "--" ++ boundary ++ "\r\n" ++
  "Content-Disposition: form-data; name=\"" ++ escapeQuotes field ++
  "\"; filename=\"" ++ escapeQuotes filename ++ "\"\r\n" ++
  "Content-Type: " ++ contentType ++ "\r\n\r\n"

/-- The bytes `multipart.Writer.Close` appends: the closing boundary. -/
def mimeFooter (boundary : String) : String :=
  "\r\n--" ++ boundary ++ "--\r\n"

/-- Outcome of a `postMultipart` call. -/
structure MultipartOutcome where
  /-- The request body handed to the HTTP client: the `io.MultiReader`
  concatenation of the buffer's first `headerSize` bytes, the file stream's
  content, and the buffer's remaining bytes. -/
  body : List Char
  /-- How many times the input stream was closed during the call. -/
  closes : Nat
  written : Option Json
  result : Except ClientErr Unit

/-- Embedding of `Client.postMultipart`: `defer r.Close()` guarantees exactly one close on
every exit path.  The part header is written into a buffer and its length
recorded, the closing boundary is appended (neither write to a
`bytes.Buffer` can fail), and the request body is assembled by concatenating
the header slice of the buffer, the live file stream, and the footer slice —
the file content is never buffered. -/
def postMultipartRun (boundary field filename contentType : String)
    (content : String) (net : Net) : MultipartOutcome :=
  let buffer := (mimePartHeader boundary field filename contentType).data
  let headerSize := buffer.length
  let buffer := buffer ++ (mimeFooter boundary).data
  let body := buffer.take headerSize ++ content.data ++ buffer.drop headerSize
  match net with
  | .error msg =>
    { body := body, closes := 1, written := none,
      result := .error (.wrapped "POST error" (.ioError msg)) }
  | .ok (status, respBody) =>
    match parseResponse status respBody with
    | .error e => { body := body, closes := 1, written := none, result := .error e }
    | .ok (_, written) => { body := body, closes := 1, written := written, result := .ok () }

/-! ## Lemmas about query maps -/

theorem vlookup_vdel (q : Values) (k k' : String) :
    vlookup (vdel q k') k = if k' = k then [] else vlookup q k := by
  induction q with
  | nil => simp [vdel, vlookup]
  | cons kv rest ih =>
    obtain ⟨k₀, vs₀⟩ := kv
    by_cases h0 : k₀ = k' <;> by_cases h1 : k' = k <;>
      simp_all [vdel, vlookup]

theorem vlookup_vadd (q : Values) (k k' v : String) :
    vlookup (vadd q k' v) k =
      if k' = k then vlookup q k ++ [v] else vlookup q k := by
  induction q with
  | nil =>
    by_cases h : k' = k <;> simp [vadd, vlookup, h]
  | cons kv rest ih =>
    obtain ⟨k₀, vs₀⟩ := kv
    by_cases h0 : k₀ = k' <;> by_cases h1 : k' = k <;>
      simp_all [vadd, vlookup]

theorem vlookup_addAll (q : Values) (k k' : String) (vs : List String) :
    vlookup (vs.foldl (fun a v => vadd a k' v) q) k =
      if k' = k then vlookup q k ++ vs else vlookup q k := by
  induction vs generalizing q with
  | nil => by_cases h : k' = k <;> simp [h]
  | cons v vs ih =>
    simp only [List.foldl_cons, ih, vlookup_vadd]
    by_cases h : k' = k <;> simp [h]

/-- One merge step: a key produced by the source gets exactly the source's
values; other keys are untouched. -/
theorem vlookup_mergeQuery (q src : Values) (k : String)
    (h : (src.map Prod.fst).Nodup) :
    vlookup (mergeQuery q src) k =
      if k ∈ src.map Prod.fst then vlookup src k else vlookup q k := by
  induction src generalizing q with
  | nil => simp [mergeQuery]
  | cons kv rest ih =>
    obtain ⟨k₀, vs₀⟩ := kv
    simp only [List.map_cons, List.nodup_cons] at h
    obtain ⟨hk₀, hrest⟩ := h
    have step : mergeQuery q ((k₀, vs₀) :: rest) =
        mergeQuery (vs₀.foldl (fun a v => vadd a k₀ v) (vdel q k₀)) rest := rfl
    rw [step, ih _ hrest]
    by_cases hmem : k ∈ rest.map Prod.fst
    · have hne : k₀ ≠ k := fun he => hk₀ (he ▸ hmem)
      simp [List.mem_cons, hmem, vlookup, hne]
    · by_cases hk : k₀ = k
      · subst hk
        simp [hmem, vlookup, vlookup_addAll, vlookup_vdel]
      · simp [hmem, vlookup, hk, Ne.symm hk, vlookup_addAll, vlookup_vdel]

/-- C4: for a read (get) call, the query mapping applies sources in
increasing precedence order — client defaults, then the domain request
value, then each supplied Options in order (the `sources` list) — and for
each key produced by a later source all previously set values for that key
are replaced, while keys absent from every later source keep the earlier
source's values.  The right-hand side is the spec's per-key override
semantics: starting from the defaults' values for `k`, each successive
source that produces `k` fully replaces the current values. -/
theorem get_query_later_sources_override (defaults : Values) (sources : List Values)
    (h : ∀ s ∈ sources, (s.map Prod.fst).Nodup) (k : String) :
    vlookup (getQuerySources defaults sources) k =
      sources.foldl
        (fun acc s => if k ∈ s.map Prod.fst then vlookup s k else acc)
        (vlookup defaults k) := by
  induction sources generalizing defaults with
  | nil => simp [getQuerySources]
  | cons s rest ih =>
    have hs : (s.map Prod.fst).Nodup := h s (List.mem_cons_self s rest)
    have hrest : ∀ t ∈ rest, (t.map Prod.fst).Nodup := fun t ht =>
      h t (List.mem_cons_of_mem s ht)
    have step : getQuerySources defaults (s :: rest) =
        getQuerySources (mergeQuery defaults s) rest := rfl
    rw [step, ih _ hrest, List.foldl_cons, vlookup_mergeQuery defaults s k hs]

/-- Witness for C4 at concrete sources: defaults carry `limit=5`; the domain
value sets `limit=10` and `offset=a`; a supplied Options sets `offset=b`.
The final query has the later sources' values, replaced not appended. -/
theorem get_query_later_sources_override_witness :
    vlookup (getQuerySources [("limit", ["5"])]
      [[("limit", ["10"]), ("offset", ["a"])], [("offset", ["b"])]]) "offset" = ["b"] ∧
    vlookup (getQuerySources [("limit", ["5"])]
      [[("limit", ["10"]), ("offset", ["a"])], [("offset", ["b"])]]) "limit" = ["10"] := by
  constructor
  · exact (get_query_later_sources_override [("limit", ["5"])]
      [[("limit", ["10"]), ("offset", ["a"])], [("offset", ["b"])]]
      (by decide) "offset").trans (by decide)
  · exact (get_query_later_sources_override [("limit", ["5"])]
      [[("limit", ["10"]), ("offset", ["a"])], [("offset", ["b"])]]
      (by decide) "limit").trans (by decide)

/-! ## Option merging for write calls -/

/-- C1: for defaults `A` and call-supplied `B`, the Options value a write
call (post/put) sends is the merge of `B` over `A`: every field the caller
set in `B` (a set field being one holding a non-zero value, the only notion
of "explicitly set" the Options value type can express) keeps exactly `B`'s
value, and every field unset in `B` takes `A`'s value — no set field is
dropped. -/
theorem write_call_merge_keeps_caller_fields (A B : Options) :
    ((doPrepareOptions A [some B]).1.limit = if B.limit = 0 then A.limit else B.limit) ∧
    ((doPrepareOptions A [some B]).1.offset = if B.offset = "" then A.offset else B.offset) ∧
    ((doPrepareOptions A [some B]).1.fields = if B.fields = [] then A.fields else B.fields) :=
  ⟨rfl, rfl, rfl⟩

/-- C10: a write call (post/put) uses only the first supplied Options when
building the request — its observable outcome (requests issued, destination
write, returned result) is the same as if only the first Options had been
passed — whereas get's query building does consult Options beyond the first
(witnessed by a concrete pair of sources). -/
theorem write_call_ignores_extra_options :
    (∀ (method : String) (A : Options) (o : Option Options)
       (rest : List (Option Options)) (data : Option DataPayload) (net : Net),
      (doRun method A data (o :: rest) net).requests = (doRun method A data [o] net).requests ∧
      (doRun method A data (o :: rest) net).written = (doRun method A data [o] net).written ∧
      (doRun method A data (o :: rest) net).result = (doRun method A data [o] net).result) ∧
    getQuerySources (optionsValues {}) [optionsValues { limit := 1 }, optionsValues { limit := 2 }]
      ≠ getQuerySources (optionsValues {}) [optionsValues { limit := 1 }] := by
  refine ⟨fun method A o rest data net => ?_, by decide⟩
  cases o <;> exact ⟨rfl, rfl, rfl⟩

/-- C7 counterexample: the caller-supplied Options are *not* unchanged after
a write call.  With client defaults `{limit := 50}` and a caller Options
`{offset := "x"}`, `mergo.Merge` inside `Client.do` mutates the caller's
value in place: after the call it holds `{limit := 50, offset := "x"}`. -/
theorem write_call_mutates_caller_options :
    (doRun "POST" { limit := 50 } none [some { offset := "x" }]
      (Except.error "connection refused")).optsAfter ≠ [some { offset := "x" }] := by
  decide

/-- C7 amended: option merging is deterministic, get leaves the supplied
Options untouched, and in a write call the mutation is confined to the first
supplied Options, which afterwards holds exactly the merge of its own value
over the defaults (Options past the first, a nil first Options, and the
client's DefaultOptions are not modified). -/
theorem write_call_option_mutation_confined (method : String) (A B : Options)
    (rest : List (Option Options)) (data : Option DataPayload) (net : Net) :
    (doRun method A data (some B :: rest) net).optsAfter = some (mergoMerge B A) :: rest ∧
    (doRun method A data (none :: rest) net).optsAfter = none :: rest ∧
    (doRun method A data [] net).optsAfter = [] :=
  ⟨rfl, rfl, rfl⟩

/-- C6 counterexample: a failing payload validation on a write call does
abort with the validation error and no HTTP request, but not with "no other
side effects": the caller's first supplied Options has already been merged
(mutated in place) by the time validation runs, because `Client.do` merges
options before validating. -/
theorem validate_failure_not_side_effect_free :
    (doRun "POST" { limit := 50 } (some { validate := some (some "invalid") })
        [some { offset := "x" }] (Except.error "unused")).result
      = .error (.validationError "invalid") ∧
    (doRun "POST" { limit := 50 } (some { validate := some (some "invalid") })
        [some { offset := "x" }] (Except.error "unused")).requests = 0 ∧
    (doRun "POST" { limit := 50 } (some { validate := some (some "invalid") })
        [some { offset := "x" }] (Except.error "unused")).optsAfter
      ≠ [some { offset := "x" }] :=
  ⟨rfl, rfl, by decide⟩

/-- C6 amended: for every call (get, post, put) whose payload exposes the
validation capability, a validation failure aborts the call with that error,
no HTTP request is issued and nothing is written to the destination; the one
side effect that has already happened on the write path is the in-place
option merge of `Client.do`, which precedes validation. -/
theorem validate_failure_aborts (method : String) (defaults : Options)
    (d : DataPayload) (msg : String) (opts : List (Option Options)) (net : Net)
    (h : d.validate = some (some msg)) :
    (getRun defaults (some d) opts net).requests = 0 ∧
    (getRun defaults (some d) opts net).written = none ∧
    (getRun defaults (some d) opts net).result = .error (.validationError msg) ∧
    (doRun method defaults (some d) opts net).requests = 0 ∧
    (doRun method defaults (some d) opts net).written = none ∧
    (doRun method defaults (some d) opts net).result = .error (.validationError msg) := by
  refine ⟨?_, ?_, ?_, ?_, ?_, ?_⟩ <;> simp [getRun, doRun, doCore, h]

/-- Witness for C6 (amended): a concrete payload whose `Validate` fails. -/
theorem validate_failure_aborts_witness :
    (getRun {} (some { validate := some (some "bad") }) [] (Except.error "unused")).requests = 0 ∧
    (doRun "PUT" {} (some { validate := some (some "bad") }) [] (Except.error "unused")).result
      = .error (.validationError "bad") := by
  refine ⟨(validate_failure_aborts "PUT" {} { validate := some (some "bad") }
    "bad" [] (Except.error "unused") rfl).1, (validate_failure_aborts "PUT" {}
    { validate := some (some "bad") } "bad" [] (Except.error "unused") rfl).2.2.2.2.2⟩

/-! ## Response classification -/

/-- C2: for every HTTP response whose status is anything other than 200 or
201 and whose body decodes as the envelope (the claim speaks of "the
envelope's errors list", presupposing the envelope), response decoding
returns the structured API error built from the envelope's `errors` list and
the raw status, and nothing is written to the caller-provided destination on
any call shape. -/
theorem error_status_yields_api_error (status : Nat) (body : Json) (env : Response)
    (h200 : status ≠ 200) (h201 : status ≠ 201)
    (henv : decodeEnvelope body = .ok env) :
    parseResponse status body = .error (.apiError env.errors status) ∧
    (∀ defaults data opts,
      (getRun defaults data opts (.ok (status, body))).written = none) ∧
    (∀ method defaults data opts,
      (doRun method defaults data opts (.ok (status, body))).written = none) := by
  have hp : parseResponse status body = .error (.apiError env.errors status) := by
    simp [parseResponse, henv, h200, h201]
  refine ⟨hp, ?_, ?_⟩
  · intro defaults data opts
    cases data with
    | none => simp [getRun, getFinish, hp]
    | some d =>
      match hv : d.validate with
      | none => simp [getRun, hv, getFinish, hp]
      | some none => simp [getRun, hv, getFinish, hp]
      | some (some msg) => simp [getRun, hv]
  · intro method defaults data opts
    cases data with
    | none => simp [doRun, doCore, hp]
    | some d =>
      match hv : d.validate with
      | none => simp [doRun, doCore, hv, hp]
      | some none => simp [doRun, doCore, hv, hp]
      | some (some msg) => simp [doRun, doCore, hv]

/-- Witness for C2: the spec's own example — a 404 whose envelope is
`{"errors":[{"message":"not found"}]}` yields the API error carrying
"not found" and the status, and a get writes nothing to its destination. -/
theorem error_status_yields_api_error_witness :
    parseResponse 404 (Json.obj [("errors", Json.arr [Json.obj [("message", Json.str "not found")]])])
      = .error (.apiError [{ message := "not found" }] 404) ∧
    (getRun {} none []
      (.ok (404, Json.obj [("errors", Json.arr [Json.obj [("message", Json.str "not found")]])]))).written
      = none := by
  refine ⟨?_, ?_⟩
  · exact (error_status_yields_api_error 404
      (Json.obj [("errors", Json.arr [Json.obj [("message", Json.str "not found")]])])
      { data := none, nextPage := none, errors := [{ message := "not found" }] }
      (by decide) (by decide) rfl).1
  · exact (error_status_yields_api_error 404
      (Json.obj [("errors", Json.arr [Json.obj [("message", Json.str "not found")]])])
      { data := none, nextPage := none, errors := [{ message := "not found" }] }
      (by decide) (by decide) rfl).2.1 {} none []

/-- C3 evaluated on the code: on a successful status, an *absent* `data`
field is rejected with the protocol error ("Missing data from response"),
but a *present* `"data": null` is not — `json.RawMessage` stores the literal
`null` bytes, so the nil check does not fire, the call succeeds, and
unmarshalling `null` leaves the destination untouched, contradicting the
claim (and the spec's testable property) that a 200 response with
`"data": null` must fail with a protocol error. -/
theorem success_status_null_data_not_rejected :
    parseResponse 200 (Json.obj [("data", Json.null)])
      = .ok ({ data := some Json.null, nextPage := none, errors := [] }, none) ∧
    parseResponse 200 (Json.obj [])
      = .error .missingData ∧
    (getRun {} none [] (.ok (200, Json.obj [("data", Json.null)]))).result
      = .ok none :=
  ⟨rfl, rfl, rfl⟩

/-! ## Pagination -/

theorem allProjectsGo_none {α : Type}
    (fetch : Options → Except ClientErr (List α × Option NextPage))
    (fuel : Nat) (acc : List α) :
    allProjectsGo fetch fuel none acc = .ok acc := by
  cases fuel <;> rfl

theorem allProjectsGo_some {α : Type}
    (fetch : Options → Except ClientErr (List α × Option NextPage))
    (n : Nat) (cur : NextPage) (acc : List α) :
    allProjectsGo fetch (n + 1) (some cur) acc =
      match fetch { limit := 100, offset := cur.offset } with
      | .error e => .error e
      | .ok (projects, nextPage) => allProjectsGo fetch n nextPage (acc ++ projects) := rfl

/-- C5: the `AllProjects` fetch-all loop, run over pages whose returned
cursors are present, present, then absent, accumulates exactly the
concatenation of the three pages' items in page order and terminates after
the third page (the result is the same for every remaining fuel, and the
later pages are reached through the cursor offsets the earlier pages
returned); and if any page's fetch fails, the loop returns that error alone
— the items already accumulated are discarded, not returned alongside it. -/
theorem all_projects_accumulates_and_aborts (α : Type) :
    (∀ (fetch : Options → Except ClientErr (List α × Option NextPage))
       (p1 p2 p3 : List α) (np1 np2 : NextPage) (n : Nat),
      fetch { limit := 100, offset := "" } = .ok (p1, some np1) →
      fetch { limit := 100, offset := np1.offset } = .ok (p2, some np2) →
      fetch { limit := 100, offset := np2.offset } = .ok (p3, none) →
      allProjects fetch (n + 3) = .ok (p1 ++ p2 ++ p3)) ∧
    (∀ (fetch : Options → Except ClientErr (List α × Option NextPage))
       (p1 : List α) (np1 : NextPage) (e : ClientErr) (n : Nat),
      fetch { limit := 100, offset := "" } = .ok (p1, some np1) →
      fetch { limit := 100, offset := np1.offset } = .error e →
      allProjects fetch (n + 2) = .error e) := by
  constructor
  · intro fetch p1 p2 p3 np1 np2 n h1 h2 h3
    show allProjectsGo fetch (n + 2 + 1) (some { offset := "" }) [] = .ok (p1 ++ p2 ++ p3)
    rw [allProjectsGo_some]
    show (match fetch { limit := 100, offset := "" } with
      | Except.error e => Except.error e
      | Except.ok (projects, nextPage) =>
          allProjectsGo fetch (n + 2) nextPage ([] ++ projects)) = Except.ok (p1 ++ p2 ++ p3)
    rw [h1]
    show allProjectsGo fetch (n + 1 + 1) (some np1) ([] ++ p1) = .ok (p1 ++ p2 ++ p3)
    rw [allProjectsGo_some, h2]
    show allProjectsGo fetch (n + 1) (some np2) ([] ++ p1 ++ p2) = .ok (p1 ++ p2 ++ p3)
    rw [allProjectsGo_some, h3]
    show allProjectsGo fetch n none ([] ++ p1 ++ p2 ++ p3) = Except.ok (p1 ++ p2 ++ p3)
    rw [allProjectsGo_none]
    simp
  · intro fetch p1 np1 e n h1 h2
    show allProjectsGo fetch (n + 1 + 1) (some { offset := "" }) [] = .error e
    rw [allProjectsGo_some]
    show (match fetch { limit := 100, offset := "" } with
      | Except.error e => Except.error e
      | Except.ok (projects, nextPage) =>
          allProjectsGo fetch (n + 1) nextPage ([] ++ projects)) = Except.error e
    rw [h1]
    show allProjectsGo fetch (n + 1) (some np1) ([] ++ p1) = .error e
    rw [allProjectsGo_some, h2]

/-- Witness for C5: three concrete pages (cursors `"a"`, `"b"`, then absent)
accumulate `[1, 2, 3, 4]`; a concrete second-page failure returns only the
error. -/
theorem all_projects_accumulates_and_aborts_witness :
    allProjects (fun o =>
      if o.offset = "" then .ok ([1], some { offset := "a" })
      else if o.offset = "a" then .ok ([2, 3], some { offset := "b" })
      else if o.offset = "b" then .ok ([(4 : Nat)], none)
      else .error (.ioError "unexpected")) 3 = .ok [1, 2, 3, 4] ∧
    allProjects (fun o =>
      if o.offset = "" then .ok ([(1 : Nat)], some { offset := "a" })
      else .error (.ioError "boom")) 2 = .error (.ioError "boom") := by
  refine ⟨(all_projects_accumulates_and_aborts Nat).1 _ [1] [2, 3] [4]
    { offset := "a" } { offset := "b" } 0 rfl rfl rfl,
    (all_projects_accumulates_and_aborts Nat).2 _ [1] { offset := "a" }
      (.ioError "boom") 0 rfl rfl⟩

/-! ## URL construction -/

/-- C8: URL construction (shared by get, post, put and postMultipart) treats
a path whose first character is not `/` — including the empty path, where
the index expression itself faults — as an unrecoverable precondition
violation (a panic, `none` in the model) rather than returning an error
value, and for every path beginning with `/` returns the base URL with the
path appended. -/
theorem geturl_panics_unless_rooted (base path : String) :
    (path.data.head? = some '/' → getURL base path = some (base ++ path)) ∧
    (path.data.head? ≠ some '/' → getURL base path = none) := by
  cases h : path.data with
  | nil => simp [getURL, h]
  | cons c cs =>
    by_cases hc : c = '/' <;> simp [getURL, h, hc]

/-- Witness for C8: a rooted path is appended to the base URL; the unrooted
path that `Project.CreateSection` actually passes panics. -/
theorem geturl_panics_unless_rooted_witness :
    getURL "https://app.asana.com/api/1.0" "/projects" =
      some "https://app.asana.com/api/1.0/projects" ∧
    getURL "https://app.asana.com/api/1.0" "projects/77/sections" = none := by
  refine ⟨(geturl_panics_unless_rooted "https://app.asana.com/api/1.0" "/projects").1 (by decide),
    (geturl_panics_unless_rooted "https://app.asana.com/api/1.0" "projects/77/sections").2 (by decide)⟩

/-! ## Multipart upload -/

/-- C9: a multipart upload of a zero-length file stream produces a request
body that is exactly the MIME part header bytes followed by the (empty) file
content followed by the closing-boundary footer bytes, and the input stream
is closed exactly once on every exit path (transport failure, response
error, or success). -/
theorem multipart_empty_stream_wellformed (boundary field filename contentType : String)
    (content : String) (net : Net) :
    (postMultipartRun boundary field filename contentType "" net).body =
      (mimePartHeader boundary field filename contentType).data ++ ([] : List Char) ++
        (mimeFooter boundary).data ∧
    (postMultipartRun boundary field filename contentType content net).closes = 1 := by
  constructor
  · have hbody : ∀ c : String,
        (postMultipartRun boundary field filename contentType c net).body =
          (mimePartHeader boundary field filename contentType).data ++ c.data ++
            (mimeFooter boundary).data := by
      intro c
      cases net with
      | error m => simp [postMultipartRun, List.take_left, List.drop_left]
      | ok p =>
        obtain ⟨status, respBody⟩ := p
        cases hpr : parseResponse status respBody with
        | error e => simp [postMultipartRun, hpr, List.take_left, List.drop_left]
        | ok v => simp [postMultipartRun, hpr, List.take_left, List.drop_left]
    simpa using hbody ""
  · cases net with
    | error m => rfl
    | ok p =>
      obtain ⟨status, respBody⟩ := p
      cases hpr : parseResponse status respBody with
      | error e => simp [postMultipartRun, hpr]
      | ok v => simp [postMultipartRun, hpr]

end Asana
